import Mathlib

/-!
Verification of the ward fixture engine and terminal helpers.

The fixture engine (scopes, fixture handles, the scope-keyed cache, the
resolver, teardown) is modelled from the specification, since only its test
suite is part of the sources at hand; the terminal helpers
(`get_exit_code`, `format_test_case_number`) are translated directly from
`ward/_terminal.py`.
-/

namespace Ward

/-- Modelled from the spec: an enumerated fixture lifetime,
`Test | Module | Global` (ward.models.Scope, declared but not defined in the
sources at hand). -/
inductive Scope : Type where
  | Test
  | Module
  | Global
  deriving DecidableEq, Repr

/-- Modelled from the spec: a resolved argument value. Mirrors the small
universe of Python values the cited tests exercise; `vnone` is Python's
`None`, the value of a body that just passes. -/
inductive Val : Type where
  | vnone
  | vstr (s : String)
  | vint (n : Int)
  deriving DecidableEq, Repr

/-- Modelled from the spec: what a fixture body does when invoked.
A body either plainly returns a value, is a two-phase generator that yields
a value and retains a deferred finalization step (recorded here as the event
label the step appends when run), raises an exception, or attempts to
terminate the process with an exit status (`sys.exit`). -/
inductive BodySpec : Type where
  | ret (v : Val)
  | gen (v : Val) (teardownEvent : String)
  | raiseExc (excName : String)
  | exits (code : Nat)
  deriving DecidableEq, Repr

mutual
/-- Modelled from the spec: the underlying callable of a fixture definition —
a reference identity (`cid`, standing in for the Python function object's
reference), a human-readable name, the declared `Scope`, the body, and the
ordered declared parameter bindings. -/
inductive Callable : Type where
  | mk (cid : Nat) (cname : String) (cscope : Scope) (cbody : BodySpec)
      (cparams : List Binding) : Callable

/-- Modelled from the spec: a declared parameter binding — a parameter name
bound either to a literal value or to a recognized fixture handle (another
callable declared as a fixture). -/
inductive Binding : Type where
  | lit (bname : String) (v : Val) : Binding
  | fixt (bname : String) (fn : Callable) : Binding
end

def Callable.cid : Callable → Nat
  | .mk i _ _ _ _ => i

def Callable.cname : Callable → String
  | .mk _ n _ _ _ => n

def Callable.cscope : Callable → Scope
  | .mk _ _ s _ _ => s

def Callable.cbody : Callable → BodySpec
  | .mk _ _ _ b _ => b

def Callable.cparams : Callable → List Binding
  | .mk _ _ _ _ p => p

/-- Modelled from the spec: whether a binding's bound value is a recognized
fixture handle (ward's `is_fixture` on the bound value). -/
def Binding.isFixtureHandle : Binding → Bool
  | .lit _ _ => false
  | .fixt _ _ => true

/-- Modelled from the spec: a fixture handle wrapping an underlying
callable, together with its resolution state — the resolved value once the
body has been invoked, and the retained deferred finalization step of a
two-phase body (recorded as the event it appends when executed). -/
structure Fixture : Type where
  fn : Callable
  resolved_val : Option Val
  teardown_step : Option String

/-- Modelled from the spec: a fixture's stable identity is derived from the
underlying callable, never from its name. -/
def Fixture.key (f : Fixture) : Nat := f.fn.cid

/-- Modelled from the spec: a fixture's declared scope comes from its
underlying callable's declaration. -/
def Fixture.scope (f : Fixture) : Scope := f.fn.cscope

/-- Modelled from the spec: equality of fixture handles is based solely on
the underlying callable's reference identity, never on name or on the value
the body produces. -/
def Fixture.eq (a b : Fixture) : Bool := a.fn.cid == b.fn.cid

/-- Modelled from the spec: `parentsOf` — the direct parents of a fixture,
read off its declared parameter bindings in declaration order. -/
def parentsOfBindings : List Binding → List Fixture
  | [] => []
  | .lit _ _ :: rest => parentsOfBindings rest
  | .fixt _ p :: rest => ⟨p, none, none⟩ :: parentsOfBindings rest

/-- Modelled from the spec: `Fixture.parents` returns the declared parameter
bindings of the definition whose bound values are fixture handles, as
`Fixture` instances, preserving declaration order. -/
def Fixture.parents (f : Fixture) : List Fixture :=
  parentsOfBindings f.fn.cparams

/-- Modelled from the spec: `buildMaps` / `fixture_parents_and_children` —
for every definition in the input set, the parent-map holds its direct
parents (possibly empty) and the child-map holds every definition in the
input set that directly depends on it (possibly empty), in input order. -/
def fixture_parents_and_children (fixtures : List Fixture) :
    List (Fixture × List Fixture) × List (Fixture × List Fixture) :=
  (fixtures.map fun f => (f, f.parents),
   fixtures.map fun f =>
     (f, fixtures.filter fun g => g.parents.any fun p => p.key == f.key))

/-- Modelled from the spec: a scope-id — a test's unique identity or a
module path (both opaque strings in the reference behaviour), or a `Scope`
value itself, since the single well-known Global scope-id constant is the
`Global` scope value. -/
inductive ScopeId : Type where
  | ofString (s : String)
  | ofScope (sc : Scope)
  deriving DecidableEq, Repr

/-- Modelled from the spec: the single well-known constant used as the
Global scope-id — the `Global` scope value itself. -/
def globalScopeId : ScopeId := ScopeId.ofScope Scope.Global

/-- Modelled from the spec: one cache slot, keyed by
(scope, scope-id, fixture identity) and holding the stored fixture. -/
structure CacheEntry : Type where
  scope : Scope
  scope_id : ScopeId
  key : Nat
  fix : Fixture

/-- Modelled from the spec: the scope-keyed cache, kept in insertion order
(first created first), as a Python dict preserves it. -/
structure FixtureCache : Type where
  entries : List CacheEntry

/-- Modelled from the spec: insert-or-overwrite at a cache key — an
existing entry with the same (scope, scope-id, identity) key is replaced in
place (last write wins, position preserved, as for a Python dict), otherwise
the new entry is appended. -/
def putEntry (sc : Scope) (sid : ScopeId) (k : Nat) (f : Fixture) :
    List CacheEntry → List CacheEntry
  | [] => [⟨sc, sid, k, f⟩]
  | e :: rest =>
    if e.scope = sc ∧ e.scope_id = sid ∧ e.key = k then
      ⟨sc, sid, k, f⟩ :: rest
    else
      e :: putEntry sc sid k f rest

/-- Modelled from the spec: `cache(definition, scopeId, value)` — stores the
fixture under key (its own declared scope, the given scope-id, its own
identity), overwriting silently if already present. -/
def FixtureCache.cache_fixture (c : FixtureCache) (f : Fixture)
    (sid : ScopeId) : FixtureCache :=
  ⟨putEntry f.scope sid f.key f c.entries⟩

/-- Modelled from the spec: find the entry stored at a
(scope, scope-id, identity) key, if any. -/
def findEntry (sc : Scope) (sid : ScopeId) (k : Nat) :
    List CacheEntry → Option CacheEntry
  | [] => none
  | e :: rest =>
    if e.scope = sc ∧ e.scope_id = sid ∧ e.key = k then some e
    else findEntry sc sid k rest

/-- Modelled from the spec: `get(identity, scope, scopeId) → value or
absent`. -/
def FixtureCache.get (c : FixtureCache) (k : Nat) (sc : Scope)
    (sid : ScopeId) : Option Fixture :=
  (findEntry sc sid k c.entries).map (·.fix)

/-- Modelled from the spec: `fixturesAtScope(scope, scopeId)` — the
identity-to-fixture mapping restricted to that single scope-key, in
insertion order. -/
def FixtureCache.get_fixtures_at_scope (c : FixtureCache) (sc : Scope)
    (sid : ScopeId) : List (Nat × Fixture) :=
  (c.entries.filter fun e => e.scope = sc ∧ e.scope_id = sid).map
    fun e => (e.key, e.fix)

/-- Modelled from the spec: a single teardown pass over the cache's entries.
Every entry at the given scope-key has its deferred finalization step run
(when the stored fixture retained one — its recorded event is emitted) and
is removed; entries at other scope-keys are kept. Matching entries are
visited first-created first. -/
def teardownEntries (sc : Scope) (sid : ScopeId) :
    List CacheEntry → List CacheEntry × List String
  | [] => ([], [])
  | e :: rest =>
    let r := teardownEntries sc sid rest
    if e.scope = sc ∧ e.scope_id = sid then
      (r.1, e.fix.teardown_step.toList ++ r.2)
    else
      (e :: r.1, r.2)

/-- Modelled from the spec: `teardownScope(scope, scopeId)` — for every
cached entry at that scope-key, runs its deferred finalization step and
removes the entry from the cache, in insertion order. Returns the cache
that remains and the teardown events that executed, in execution order. -/
def FixtureCache.teardown_fixtures_for_scope (c : FixtureCache) (sc : Scope)
    (sid : ScopeId) : FixtureCache × List String :=
  let r := teardownEntries sc sid c.entries
  (⟨r.1⟩, r.2)

/-- Modelled from the spec: the pass performed by `teardownGlobal()` — runs
the retained finalization step of every Global-scoped cached fixture (they
are stored under the well-known Global scope-id constant) and removes those
entries. -/
def teardownGlobalEntries : List CacheEntry → List CacheEntry × List String
  | [] => ([], [])
  | e :: rest =>
    let r := teardownGlobalEntries rest
    if e.scope = Scope.Global ∧ e.scope_id = ScopeId.ofScope Scope.Global then
      (r.1, e.fix.teardown_step.toList ++ r.2)
    else
      (e :: r.1, r.2)

/-- Modelled from the spec: `teardownGlobal()` — tears down every
Global-scoped cached fixture, invoked once at the very end of a run. -/
def FixtureCache.teardown_global_fixtures (c : FixtureCache) :
    FixtureCache × List String :=
  let r := teardownGlobalEntries c.entries
  (⟨r.1⟩, r.2)

/-- Modelled from the spec: reporting metadata of a parameterised test
instance — its index within the generated group and the group's size
(ward.testing.ParamMeta, declared but not defined in the sources at hand;
a non-parameterised test carries index 0 and group size 1). -/
structure ParamMeta : Type where
  instance_index : Nat
  group_size : Nat

/-- Modelled from the spec: a single test invocation — its unique identity,
its declaring module path, its declared parameter bindings
(literal-or-fixture), and its parameterisation metadata. -/
structure Test : Type where
  tid : String
  path : String
  params : List Binding
  param_meta : ParamMeta

/-- Modelled from the spec: the scope-key under which a fixture of the given
declared scope is cached while resolving this test's arguments — Test scope
uses the current test's identity, Module scope the test's declaring module
path, Global scope the single global constant. -/
def scope_key (t : Test) (sc : Scope) : ScopeId :=
  match sc with
  | .Test => .ofString t.tid
  | .Module => .ofString t.path
  | .Global => globalScopeId

/-- Modelled from the spec: the cause carried by a `FixtureError` — the
exception the fixture body raised, or the exit status the body requested
when it attempted to terminate the process. -/
inductive FailCause : Type where
  | exc (excName : String)
  | processExit (code : Nat)
  deriving DecidableEq, Repr

/-- Modelled from the spec: the error surfaced when invoking a fixture body
fails during resolution — it identifies which fixture failed (by identity)
and wraps the original failure. -/
structure FixtureError : Type where
  key : Nat
  cause : FailCause
  deriving DecidableEq, Repr

/-- Modelled from the spec: which failure a body signals when invoked —
the exception it raises, or the exit status it requests when attempting to
terminate the process; `none` for a body that succeeds. -/
def failCauseOf : BodySpec → Option FailCause
  | .raiseExc e => some (.exc e)
  | .exits code => some (.processExit code)
  | .ret _ => none
  | .gen _ _ => none

/-- Modelled from the spec: the bound fixture handle of a binding, as a
`Fixture` instance, when its bound value is one. -/
def Binding.asFixture : Binding → Option Fixture
  | .lit _ _ => none
  | .fixt _ p => some ⟨p, none, none⟩

mutual
/-- Modelled from the spec: resolve one fixture for a test. Computes the
scope-key from the fixture's *own* declared scope; on a cache hit reuses
the cached value without invoking the body; on a miss first resolves the
fixture's own declared bindings (dependency-first), then invokes the body:
a plain return or a generator yield produces the value (the generator's
remainder is retained as the teardown step) and the new fixture is stored
at the computed scope-key; a raising body or one attempting to terminate
the process aborts resolution with a `FixtureError`. -/
def resolve_fixture (t : Test) (fn : Callable) (c : FixtureCache) :
    Except FixtureError (Val × FixtureCache) :=
  match fn with
  | .mk i nm sc body ps =>
    let sid := scope_key t sc
    match c.get i sc sid with
    | some cached =>
      match cached.resolved_val with
      | some v => .ok (v, c)
      | none => .ok (Val.vnone, c)
    | none =>
      match resolve_bindings t ps c with
      | .error e => .error e
      | .ok (_, c1) =>
        match body with
        | .ret v =>
          .ok (v, c1.cache_fixture ⟨.mk i nm sc body ps, some v, none⟩ sid)
        | .gen v ev =>
          .ok (v, c1.cache_fixture ⟨.mk i nm sc body ps, some v, some ev⟩ sid)
        | .raiseExc excName => .error ⟨i, .exc excName⟩
        | .exits code => .error ⟨i, .processExit code⟩

/-- Modelled from the spec: resolve an ordered list of declared parameter
bindings for a test, left to right, threading the cache: a literal binding
is used unchanged; a fixture binding is resolved through the cache. Any
failure aborts the whole resolution — the caller receives no partial
argument bindings. -/
def resolve_bindings (t : Test) (bs : List Binding) (c : FixtureCache) :
    Except FixtureError (List (String × Val) × FixtureCache) :=
  match bs with
  | [] => .ok ([], c)
  | .lit n v :: rest =>
    match resolve_bindings t rest c with
    | .error e => .error e
    | .ok (args, c1) => .ok ((n, v) :: args, c1)
  | .fixt n fn :: rest =>
    match resolve_fixture t fn c with
    | .error e => .error e
    | .ok (v, c1) =>
      match resolve_bindings t rest c1 with
      | .error e => .error e
      | .ok (args, c2) => .ok ((n, v) :: args, c2)
end

/-- Modelled from the spec: `resolveArgs(test, cache)` — walks the test's
declared parameter bindings and produces the final argument bindings used
to invoke the test body, mutating the cache as a side effect; a fixture
failure surfaces a single `FixtureError` and no bindings. -/
def Test.resolve_args (t : Test) (c : FixtureCache) :
    Except FixtureError (List (String × Val) × FixtureCache) :=
  resolve_bindings t t.params c

/-- Concrete definition mirroring the cited test's fixture `a` (no
dependencies). -/
def fixDefA : Callable := .mk 0 "a" Scope.Test (.ret .vnone) []

/-- Concrete definition mirroring the cited test's fixture `b` (no
dependencies). -/
def fixDefB : Callable := .mk 1 "b" Scope.Test (.ret .vnone) []

/-- Concrete definition mirroring the cited test's fixture `c(a, b)`. -/
def fixDefC : Callable :=
  .mk 2 "c" Scope.Test (.ret .vnone) [.fixt "a" fixDefA, .fixt "b" fixDefB]

/-- Concrete definition mirroring the cited test's fixture `d(a, c)`. -/
def fixDefD : Callable :=
  .mk 3 "d" Scope.Test (.ret .vnone) [.fixt "a" fixDefA, .fixt "c" fixDefC]

/-- The handle `Fixture(a)`. -/
def fixA : Fixture := ⟨fixDefA, none, none⟩

/-- The handle `Fixture(b)`. -/
def fixB : Fixture := ⟨fixDefB, none, none⟩

/-- The handle `Fixture(c)`. -/
def fixC : Fixture := ⟨fixDefC, none, none⟩

/-- The handle `Fixture(d)`. -/
def fixD : Fixture := ⟨fixDefD, none, none⟩

/-- A concrete handle: callable reference 7 under the name `alpha`. -/
def fixAlpha : Fixture := ⟨.mk 7 "alpha" Scope.Test (.ret .vnone) [], none, none⟩

/-- A concrete handle wrapping the same callable reference 7 under a
different name and with a different body description. -/
def fixBeta : Fixture := ⟨.mk 7 "beta" Scope.Test (.ret (.vint 3)) [], none, none⟩

/-- A concrete fixture definition whose only declared binding is a
literal, so it has no parents. -/
def fixNoParents : Fixture :=
  ⟨.mk 9 "lone" Scope.Test (.ret .vnone) [.lit "x" .vnone], none, none⟩

/-- The possible outcomes of one executed test (ward.testing.TestOutcome,
declared but not defined in the sources at hand; only the constructor names
matter here). -/
inductive TestOutcome : Type where
  | PASS
  | FAIL
  | SKIP
  | XFAIL
  | XPASS
  | DRYRUN
  deriving DecidableEq, Repr

/-- The process exit codes of a run (ward.models.ExitCode, declared but not
defined in the sources at hand; only the constructor names matter here). -/
inductive ExitCode : Type where
  | SUCCESS
  | FAILED
  | ERROR
  | NO_TESTS_FOUND
  deriving DecidableEq, Repr

/-- The result record of one executed test; `get_exit_code` only reads its
outcome (ward.testing.TestResult, declared but not defined in the sources
at hand). -/
structure TestResult : Type where
  outcome : TestOutcome

/-- Translated from `get_exit_code` in ward/_terminal.py: an empty result
collection yields NO_TESTS_FOUND; otherwise FAILED when any result's
outcome is FAIL or XPASS, else SUCCESS. -/
def get_exit_code (results : List TestResult) : ExitCode :=
  if results.isEmpty then
    ExitCode.NO_TESTS_FOUND
  else if results.any fun r =>
      r.outcome == TestOutcome.FAIL || r.outcome == TestOutcome.XPASS then
    ExitCode.FAILED
  else
    ExitCode.SUCCESS

/-- Python's right-aligning string format `f"{s:>{w}}"`: pad on the left
with spaces up to a minimum width `w` (no truncation when longer). -/
def alignRight (s : String) (w : Nat) : String :=
  String.mk (List.replicate (w - s.length) ' ') ++ s

/-- Translated from `format_test_case_number` in ward/_terminal.py: when the
test's parameterisation group size exceeds 1, the 1-based case indicator
`[index+1/groupSize]` with the index right-aligned to the width of the
group size's decimal rendering; otherwise the empty string. -/
def format_test_case_number (t : Test) : String :=
  let pm := t.param_meta
  if pm.group_size > 1 then
    let pad := (toString pm.group_size).length
    "[" ++ alignRight (toString (pm.instance_index + 1)) pad ++ "/"
      ++ toString pm.group_size ++ "]"
  else
    ""

end Ward

namespace Ward

/-- Every entry the replacement pass leaves in place either was already
there or is the newly stored one. Round-trip: looking up the key just
written finds the just-written fixture. -/
theorem findEntry_putEntry (sc : Scope) (sid : ScopeId) (k : Nat)
    (f : Fixture) (es : List CacheEntry) :
    findEntry sc sid k (putEntry sc sid k f es) = some ⟨sc, sid, k, f⟩ := by
  induction es with
  | nil => simp [putEntry, findEntry]
  | cons e rest ih =>
    by_cases h : e.scope = sc ∧ e.scope_id = sid ∧ e.key = k
    · simp [putEntry, findEntry, h]
    · simp [putEntry, findEntry, h, ih]

/-- The entries a teardown pass keeps are exactly those at other
scope-keys, in their original order. -/
theorem teardownEntries_fst (sc : Scope) (sid : ScopeId)
    (es : List CacheEntry) :
    (teardownEntries sc sid es).1 =
      es.filter fun e => ¬(e.scope = sc ∧ e.scope_id = sid) := by
  induction es with
  | nil => simp [teardownEntries]
  | cons e rest ih =>
    by_cases h : e.scope = sc ∧ e.scope_id = sid
    · simp [teardownEntries, h, ih]
    · simp only [teardownEntries, if_neg h, ih]
      rw [List.filter_cons_of_pos (by simp [h])]

/-- The events a teardown pass emits are the retained teardown steps of
the entries at the requested scope-key, in insertion order. -/
theorem teardownEntries_snd (sc : Scope) (sid : ScopeId)
    (es : List CacheEntry) :
    (teardownEntries sc sid es).2 =
      (es.filter fun e => e.scope = sc ∧ e.scope_id = sid).filterMap
        fun e => e.fix.teardown_step := by
  induction es with
  | nil => simp [teardownEntries]
  | cons e rest ih =>
    by_cases h : e.scope = sc ∧ e.scope_id = sid
    · cases hstep : e.fix.teardown_step <;>
        simp [teardownEntries, h, ih, hstep]
    · simp [teardownEntries, h, ih]

/-- The global teardown pass is the generic teardown pass instantiated at
the Global scope-key. -/
theorem teardownGlobalEntries_eq (es : List CacheEntry) :
    teardownGlobalEntries es =
      teardownEntries Scope.Global globalScopeId es := by
  induction es with
  | nil => rfl
  | cons e rest ih => simp [teardownGlobalEntries, teardownEntries, ih, globalScopeId]

/-- C5: storing a fixture and looking it up under the same
(identity, scope, scope-id) key round-trips — `get(f.key, f.scope, s)`
immediately after `cache_fixture(f, s)` returns exactly the stored fixture,
whatever the cache already held. -/
theorem cache_fixture_get_roundtrip (c : FixtureCache) (f : Fixture)
    (sid : ScopeId) :
    (c.cache_fixture f sid).get f.key f.scope sid = some f := by
  simp [FixtureCache.cache_fixture, FixtureCache.get, findEntry_putEntry]

/-- C2: after `teardown_fixtures_for_scope(scope, scopeId)`,
`get_fixtures_at_scope(scope, scopeId)` is empty, and the teardown events
that executed are exactly the retained teardown steps of the entries that
were cached at that scope-key, each exactly once, in insertion order
(first created, first torn down). -/
theorem teardown_scope_spec (c : FixtureCache) (sc : Scope)
    (sid : ScopeId) :
    ((c.teardown_fixtures_for_scope sc sid).1).get_fixtures_at_scope sc sid
        = [] ∧
    (c.teardown_fixtures_for_scope sc sid).2 =
      (c.entries.filter fun e => e.scope = sc ∧ e.scope_id = sid).filterMap
        fun e => e.fix.teardown_step := by
  constructor
  · simp only [FixtureCache.teardown_fixtures_for_scope,
      FixtureCache.get_fixtures_at_scope, teardownEntries_fst]
    rw [List.filter_filter]
    simp only [List.map_eq_nil_iff, List.filter_eq_nil_iff]
    intro e _
    by_cases h : e.scope = sc ∧ e.scope_id = sid <;> simp [h]
  · simp [FixtureCache.teardown_fixtures_for_scope, teardownEntries_snd]

/-- C6: `teardown_global_fixtures` coincides with
`teardown_fixtures_for_scope(Global, theGlobalConstant)`: it runs the
retained teardown step of every Global-scoped cached fixture, leaves
`get_fixtures_at_scope(Global, theGlobalConstant)` empty, and the
well-known global scope-id constant is the `Global` scope value itself. -/
theorem teardown_global_equiv (c : FixtureCache) :
    c.teardown_global_fixtures =
      c.teardown_fixtures_for_scope Scope.Global globalScopeId ∧
    ((c.teardown_global_fixtures).1).get_fixtures_at_scope Scope.Global
        globalScopeId = [] ∧
    ((c.teardown_global_fixtures).2 =
      (c.entries.filter fun e =>
        e.scope = Scope.Global ∧ e.scope_id = globalScopeId).filterMap
        fun e => e.fix.teardown_step) ∧
    globalScopeId = ScopeId.ofScope Scope.Global := by
  have hequiv : c.teardown_global_fixtures =
      c.teardown_fixtures_for_scope Scope.Global globalScopeId := by
    simp [FixtureCache.teardown_global_fixtures,
      FixtureCache.teardown_fixtures_for_scope, teardownGlobalEntries_eq]
  refine ⟨hequiv, ?_, ?_, rfl⟩
  · rw [hequiv]
    simp only [FixtureCache.teardown_fixtures_for_scope,
      FixtureCache.get_fixtures_at_scope, teardownEntries_fst]
    rw [List.filter_filter]
    simp only [List.map_eq_nil_iff, List.filter_eq_nil_iff]
    intro e _
    by_cases h : e.scope = Scope.Global ∧ e.scope_id = globalScopeId <;>
      simp [h]
  · rw [hequiv]
    simp [FixtureCache.teardown_fixtures_for_scope, teardownEntries_snd]

/-- C8: equality of fixture handles is an equivalence relation determined
solely by the wrapped underlying callable's reference identity: two handles
compare equal exactly when they wrap the same callable reference,
independent of name or produced value, and two handles wrapping the same
underlying callable collide as cache keys (the second stored wins at the
first's key). -/
theorem fixture_identity_equality :
    (∀ f : Fixture, Fixture.eq f f = true) ∧
    (∀ f g : Fixture, Fixture.eq f g = true → Fixture.eq g f = true) ∧
    (∀ f g h : Fixture, Fixture.eq f g = true → Fixture.eq g h = true →
      Fixture.eq f h = true) ∧
    (∀ f g : Fixture, Fixture.eq f g = true ↔ f.fn.cid = g.fn.cid) ∧
    (∀ (c : FixtureCache) (sid : ScopeId) (f g : Fixture), f.fn = g.fn →
      ((c.cache_fixture f sid).cache_fixture g sid).get f.key f.scope sid
        = some g) := by
  refine ⟨?_, ?_, ?_, ?_, ?_⟩
  · intro f
    simp [Fixture.eq]
  · intro f g hfg
    simp only [Fixture.eq, beq_iff_eq] at *
    exact hfg.symm
  · intro f g h hfg hgh
    simp only [Fixture.eq, beq_iff_eq] at *
    exact hfg.trans hgh
  · intro f g
    simp [Fixture.eq]
  · intro c sid f g hfg
    have hk : f.key = g.key := by simp [Fixture.key, hfg]
    have hs : f.scope = g.scope := by simp [Fixture.scope, hfg]
    rw [hk, hs]
    simp [FixtureCache.cache_fixture, FixtureCache.get, findEntry_putEntry]

/-- Witness for C8 at concrete handles: `alpha` and `beta` wrap the same
callable reference and compare equal (symmetrically), and storing a handle
twice at the same scope-id leaves it retrievable at its key. -/
theorem fixture_identity_equality_witness :
    Fixture.eq fixBeta fixAlpha = true ∧
    (((FixtureCache.mk []).cache_fixture fixAlpha
        (ScopeId.ofString "t")).cache_fixture fixAlpha
        (ScopeId.ofString "t")).get fixAlpha.key fixAlpha.scope
        (ScopeId.ofString "t") = some fixAlpha :=
  ⟨fixture_identity_equality.2.1 fixAlpha fixBeta (by decide),
   fixture_identity_equality.2.2.2.2 ⟨[]⟩ (ScopeId.ofString "t") fixAlpha
     fixAlpha rfl⟩

/-- C7: `Fixture.parents` returns exactly the declared parameter bindings
whose bound values are fixture handles, as `Fixture` instances in
declaration order, and is empty when the definition has no fixture-valued
bindings. -/
theorem parents_are_fixture_bindings :
    (∀ f : Fixture, f.parents = f.fn.cparams.filterMap Binding.asFixture) ∧
    (∀ f : Fixture, (∀ b ∈ f.fn.cparams, b.isFixtureHandle = false) →
      f.parents = []) := by
  have hgen : ∀ bs : List Binding,
      parentsOfBindings bs = bs.filterMap Binding.asFixture := by
    intro bs
    induction bs with
    | nil => rfl
    | cons b rest ih =>
      cases b <;> simp [parentsOfBindings, Binding.asFixture, ih]
  refine ⟨fun f => hgen _, fun f hf => ?_⟩
  rw [Fixture.parents, hgen, List.filterMap_eq_nil_iff]
  intro b hb
  have hb2 := hf b hb
  cases b <;> simp_all [Binding.asFixture, Binding.isFixtureHandle]

/-- Witness for C7: a concrete fixture whose only binding is a literal has
no parents. -/
theorem parents_are_fixture_bindings_witness :
    fixNoParents.parents = [] :=
  parents_are_fixture_bindings.2 fixNoParents (by decide)

/-- C4: for the fixture set {a, b, c(a, b), d(a, c)},
`fixture_parents_and_children` yields exactly the direct parent-map
{a:[], b:[], c:[a,b], d:[a,c]} and child-map {a:[c,d], b:[c], c:[d], d:[]},
with empty lists for definitions without dependencies or dependents. -/
theorem fixture_graph_maps :
    fixture_parents_and_children [fixA, fixB, fixC, fixD] =
      ([(fixA, []), (fixB, []), (fixC, [fixA, fixB]), (fixD, [fixA, fixC])],
       [(fixA, [fixC, fixD]), (fixB, [fixC]), (fixC, [fixD]),
        (fixD, [])]) := by
  rfl

/-- C1: resolving a test that binds a literal plus one Global-, one
Module- and one Test-scoped two-phase fixture, starting from an empty
cache, produces the expected argument bindings and caches each resolved
fixture only under the scope-key of its *own* declared scope: the cache
ends up holding exactly the three entries — the Global fixture under the
global constant, the Module fixture under the test's declaring module
path, the Test fixture under the test's identity — and
`get_fixtures_at_scope` returns exactly the one matching fixture at each
of those three scope-keys. -/
theorem resolve_caches_at_own_scope
    (tid path ng nm nt : String) (vlit vg vm vt : Val)
    (ig im it : Nat) (eg em et : String) :
    let g : Callable := .mk ig ng Scope.Global (.gen vg eg) []
    let m : Callable := .mk im nm Scope.Module (.gen vm em) []
    let tg : Callable := .mk it nt Scope.Test (.gen vt et) []
    let t : Test := ⟨tid, path,
      [.lit "f1" vlit, .fixt "f2" g, .fixt "f3" m, .fixt "f4" tg], ⟨0, 1⟩⟩
    let eG : CacheEntry := ⟨Scope.Global, globalScopeId, ig, ⟨g, some vg, some eg⟩⟩
    let eM : CacheEntry := ⟨Scope.Module, .ofString path, im, ⟨m, some vm, some em⟩⟩
    let eT : CacheEntry := ⟨Scope.Test, .ofString tid, it, ⟨tg, some vt, some et⟩⟩
    t.resolve_args ⟨[]⟩ =
      .ok ([("f1", vlit), ("f2", vg), ("f3", vm), ("f4", vt)],
        ⟨[eG, eM, eT]⟩) ∧
    FixtureCache.get_fixtures_at_scope ⟨[eG, eM, eT]⟩ Scope.Test
        (.ofString tid) = [(it, ⟨tg, some vt, some et⟩)] ∧
    FixtureCache.get_fixtures_at_scope ⟨[eG, eM, eT]⟩ Scope.Module
        (.ofString path) = [(im, ⟨m, some vm, some em⟩)] ∧
    FixtureCache.get_fixtures_at_scope ⟨[eG, eM, eT]⟩ Scope.Global
        globalScopeId = [(ig, ⟨g, some vg, some eg⟩)] := by
  refine ⟨rfl, ?_, ?_, ?_⟩ <;>
    simp [FixtureCache.get_fixtures_at_scope, globalScopeId]

/-- Resolution of a test's bindings from an empty cache aborts with the
failing fixture's error: leading literal bindings resolve unchanged, and
the first fixture binding whose body signals a failure produces a
`FixtureError` identifying that fixture and wrapping the failure. -/
theorem resolve_bindings_fail (t : Test) (n nm : String) (fid : Nat)
    (sc : Scope) (body : BodySpec) (cause : FailCause)
    (pre rest : List Binding)
    (hpre : ∀ b ∈ pre, b.isFixtureHandle = false)
    (hfail : failCauseOf body = some cause) :
    resolve_bindings t (pre ++ .fixt n (.mk fid nm sc body []) :: rest) ⟨[]⟩
      = .error ⟨fid, cause⟩ := by
  induction pre with
  | nil =>
    simp only [List.nil_append]
    cases body with
    | ret v => simp [failCauseOf] at hfail
    | gen v ev => simp [failCauseOf] at hfail
    | raiseExc e =>
      simp only [failCauseOf, Option.some.injEq] at hfail
      subst hfail
      simp [resolve_bindings, resolve_fixture, FixtureCache.get, findEntry]
    | exits code =>
      simp only [failCauseOf, Option.some.injEq] at hfail
      subst hfail
      simp [resolve_bindings, resolve_fixture, FixtureCache.get, findEntry]
  | cons b pre ih =>
    cases b with
    | lit bn bv =>
      have h2 := ih (fun b hb => hpre b (List.mem_cons_of_mem _ hb))
      simp [resolve_bindings, h2]
    | fixt bn bfn =>
      exact absurd (hpre _ (List.mem_cons_self _ _))
        (by simp [Binding.isFixtureHandle])

/-- C3: if a fixture's body fails during instantiation — raising an
exception or attempting to terminate the process via `sys.exit` with any
exit code, including 0 — then resolving the arguments of a test that
depends on that fixture surfaces a single `FixtureError` identifying the
fixture and wrapping the original failure (the requested exit status is
carried as its cause); the result is the error alone, so the caller
receives no partial argument bindings and no bare exception or process
exit escapes. -/
theorem failing_fixture_raises_fixture_error
    (tid path n nm : String) (fid : Nat) (sc : Scope) (body : BodySpec)
    (cause : FailCause) (pre rest : List Binding) (pm : ParamMeta)
    (hpre : ∀ b ∈ pre, b.isFixtureHandle = false)
    (hfail : failCauseOf body = some cause) :
    (Test.mk tid path (pre ++ .fixt n (.mk fid nm sc body []) :: rest)
        pm).resolve_args ⟨[]⟩ = .error ⟨fid, cause⟩ :=
  resolve_bindings_fail _ n nm fid sc body cause pre rest hpre hfail

/-- Witness for C3: a fixture whose body exits with status 0, bound after a
literal, makes resolution fail with a `FixtureError` carrying exit status
0. -/
theorem failing_fixture_raises_fixture_error_witness :
    (Test.mk "t1" "p" [.lit "x" .vnone,
        .fixt "f" (.mk 5 "f" Scope.Test (.exits 0) [])]
        ⟨0, 1⟩).resolve_args ⟨[]⟩ = .error ⟨5, .processExit 0⟩ :=
  failing_fixture_raises_fixture_error "t1" "p" "f" "f" 5 Scope.Test
    (.exits 0) (.processExit 0) [.lit "x" .vnone] [] ⟨0, 1⟩ (by decide) rfl

/-- A natural number's default rendering has as many characters as its
base-10 digit list. -/
theorem toString_nat_length (n : Nat) :
    (toString n).length = (Nat.toDigits 10 n).length := rfl

/-- C9: `get_exit_code` returns NO_TESTS_FOUND on an empty result
collection; on a non-empty one it returns FAILED exactly when some result
has outcome FAIL or XPASS, and SUCCESS whenever no result does — so PASS,
SKIP, XFAIL and DRYRUN outcomes alone never produce a failing exit
code. -/
theorem exit_code_spec :
    get_exit_code [] = ExitCode.NO_TESTS_FOUND ∧
    ∀ rs : List TestResult, rs ≠ [] →
      ((get_exit_code rs = ExitCode.FAILED ↔
         ∃ r ∈ rs, r.outcome = TestOutcome.FAIL ∨
           r.outcome = TestOutcome.XPASS) ∧
       ((∀ r ∈ rs, r.outcome ≠ TestOutcome.FAIL ∧
           r.outcome ≠ TestOutcome.XPASS) →
         get_exit_code rs = ExitCode.SUCCESS)) := by
  refine ⟨rfl, fun rs hrs => ?_⟩
  have hne : rs.isEmpty = false := by
    cases rs
    · exact absurd rfl hrs
    · rfl
  have hval : get_exit_code rs =
      (if (rs.any fun r => r.outcome == TestOutcome.FAIL ||
          r.outcome == TestOutcome.XPASS) = true then ExitCode.FAILED
       else ExitCode.SUCCESS) := by
    simp [get_exit_code, hne]
  have hany : (rs.any fun r => r.outcome == TestOutcome.FAIL ||
      r.outcome == TestOutcome.XPASS) = true ↔
      ∃ r ∈ rs, r.outcome = TestOutcome.FAIL ∨
        r.outcome = TestOutcome.XPASS := by
    simp [List.any_eq_true]
  constructor
  · rw [hval]
    by_cases h : ∃ r ∈ rs, r.outcome = TestOutcome.FAIL ∨
        r.outcome = TestOutcome.XPASS
    · simp [hany.mpr h, h]
    · rw [if_neg fun hh => h (hany.mp hh)]
      simp [h]
  · intro hall
    rw [hval, if_neg]
    intro hh
    obtain ⟨r, hr, hor⟩ := hany.mp hh
    rcases hor with h1 | h1
    · exact (hall r hr).1 h1
    · exact (hall r hr).2 h1

/-- Witness for C9: one passing result yields SUCCESS; one XPASS result
yields FAILED. -/
theorem exit_code_spec_witness :
    get_exit_code [⟨TestOutcome.PASS⟩] = ExitCode.SUCCESS ∧
    get_exit_code [⟨TestOutcome.XPASS⟩] = ExitCode.FAILED :=
  ⟨(exit_code_spec.2 [⟨TestOutcome.PASS⟩] (by simp)).2 (by simp),
   (exit_code_spec.2 [⟨TestOutcome.XPASS⟩] (by simp)).1.mpr
     ⟨⟨TestOutcome.XPASS⟩, by simp⟩⟩

/-- C10: `format_test_case_number` returns the empty string whenever the
test's parameterisation group size is at most 1; for group size n > 1 and
instance index i it returns the 1-based indicator `[i+1/n]` with the index
right-aligned to the decimal width of n. -/
theorem case_number_format (t : Test) :
    (t.param_meta.group_size ≤ 1 → format_test_case_number t = "") ∧
    (1 < t.param_meta.group_size →
      format_test_case_number t =
        "[" ++ alignRight (toString (t.param_meta.instance_index + 1))
            ((Nat.toDigits 10 t.param_meta.group_size).length)
          ++ "/" ++ toString t.param_meta.group_size ++ "]") := by
  constructor
  · intro hle
    have hn : ¬ t.param_meta.group_size > 1 := by omega
    simp [format_test_case_number, hn]
  · intro hgt
    simp [format_test_case_number, hgt, toString_nat_length]

/-- Witness for C10: the third of five instances renders as `[3/5]`, and a
non-parameterised test (group size 1) gets no case-number suffix. -/
theorem case_number_format_witness :
    format_test_case_number ⟨"", "", [], ⟨2, 5⟩⟩ = "[3/5]" ∧
    format_test_case_number ⟨"", "", [], ⟨0, 1⟩⟩ = "" :=
  ⟨((case_number_format ⟨"", "", [], ⟨2, 5⟩⟩).2 (by decide)).trans
     (by decide),
   (case_number_format ⟨"", "", [], ⟨0, 1⟩⟩).1 (by decide)⟩

end Ward
